import Mathlib

/-!
Formal model of `src/smart_dust_system.py` (Smart Dust simulation core).

Python floats are modelled as rationals (`ℚ`); `random.gauss`/`datetime.now`
draws are abstracted as explicit rational inputs at each call site; Python
`round(x, 2)` (round-half-to-even to 2 decimal places) is modelled by
`round2`; Python strings (status, severity) are kept as `String`; `deque`
and list-slice bounded buffers are both modelled by `boundedAppend`.
-/

/-- Round a rational to the nearest integer, ties to even — the tie-breaking
rule of Python `round`. -/
def roundHalfEven (x : ℚ) : ℤ :=
  if x - ⌊x⌋ < 1/2 then ⌊x⌋
  else if 1/2 < x - ⌊x⌋ then ⌊x⌋ + 1
  else if ⌊x⌋ % 2 = 0 then ⌊x⌋ else ⌊x⌋ + 1

/-- Python `round(x, 2)`: round to 2 decimal places, ties to even. -/
def round2 (x : ℚ) : ℚ := (roundHalfEven (x * 100) : ℚ) / 100

/-- `x` is an exact multiple of `1/100`, i.e. rounded to 2 decimal places. -/
def isRounded2 (x : ℚ) : Prop := ∃ k : ℤ, x = (k : ℚ) / 100

/-- Last `n` elements of a list, in order: Python `xs[-n:]` for `n ≥ 1`
(and also the content kept by a `deque(maxlen=n)` / `xs = xs[-n:]`
truncation). -/
def takeLast (n : Nat) (xs : List α) : List α := xs.drop (xs.length - n)

/-- Append one element to a FIFO-bounded buffer of capacity `cap`, evicting
oldest-first beyond the capacity.  Models both `deque(maxlen=cap).append(x)`
(`SmartDustMote.reading_history`) and the `append` + `if len > cap: keep
last cap` idiom (`DataProcessor.add_reading`, `AlertSystem.check_and_alert`). -/
def boundedAppend (cap : Nat) (xs : List α) (x : α) : List α :=
  if (xs ++ [x]).length > cap then (xs ++ [x]).drop ((xs ++ [x]).length - cap)
  else xs ++ [x]

/-- `DustReading`: a single reading from a mote.  `timestamp` (a Python
`datetime`) is modelled as an abstract rational time value. -/
structure DustReading where
  mote_id : String
  timestamp : ℚ
  pm25 : ℚ
  pm10 : ℚ
  temperature : ℚ
  humidity : ℚ
  location : ℚ × ℚ
deriving DecidableEq, Repr

/-- `SmartDustMote.PM25_SAFE_THRESHOLD = 25.0`. -/
def PM25_SAFE_THRESHOLD : ℚ := 25

/-- `SmartDustMote.PM10_SAFE_THRESHOLD = 50.0`. -/
def PM10_SAFE_THRESHOLD : ℚ := 50

/-- `SmartDustMote`: a sensor node. -/
structure SmartDustMote where
  mote_id : String
  location : ℚ × ℚ
  base_pollution : ℚ
  is_active : Bool
  reading_history : List DustReading
deriving DecidableEq, Repr

/-- `SmartDustMote.__init__(mote_id, location, base_pollution)`: stores the
arguments unchecked, sets `is_active = True` and an empty bounded history. -/
def moteInit (mote_id : String) (location : ℚ × ℚ) (base_pollution : ℚ) :
    SmartDustMote :=
  { mote_id := mote_id, location := location, base_pollution := base_pollution,
    is_active := true, reading_history := [] }

/-- `SmartDustMote.sense()`.  The five `random.gauss` draws and the
`datetime.now()` value are explicit inputs: `gTime` is the `gauss(0, 1)` draw
in the time factor, `gPm25` the `gauss(0, 5)` PM2.5 noise, `gPm10` the
`gauss(0, 8)` PM10 noise, `gTemp` the `gauss(0, 5)` temperature noise, `gHum`
the `gauss(0, 15)` humidity noise.  Returns the reading and the mote with the
reading appended to its bounded history. -/
def sense (m : SmartDustMote) (gTime gPm25 gPm10 gTemp gHum now : ℚ) :
    DustReading × SmartDustMote :=
  let pm25_base := 10 + m.base_pollution * 40
  let pm10_base := 20 + m.base_pollution * 60
  let time_factor := 1 + (3/10) * gTime
  let pm25 := max 0 (pm25_base * time_factor + gPm25)
  let pm10 := max 0 (pm10_base * time_factor + gPm10)
  let temperature := 20 + gTemp
  let humidity := max 0 (min 100 (40 + gHum))
  let reading : DustReading :=
    { mote_id := m.mote_id, timestamp := now, pm25 := round2 pm25,
      pm10 := round2 pm10, temperature := round2 temperature,
      humidity := round2 humidity, location := m.location }
  (reading, { m with reading_history := boundedAppend 100 m.reading_history reading })

/-- Result of `SmartDustMote.get_average_pollution` (the dict with keys
`pm25`, `pm10`). -/
structure AvgPollution where
  pm25 : ℚ
  pm10 : ℚ
deriving DecidableEq, Repr

/-- `SmartDustMote.get_average_pollution()`. -/
def get_average_pollution (m : SmartDustMote) : AvgPollution :=
  if m.reading_history = [] then { pm25 := 0, pm10 := 0 }
  else
    { pm25 := round2 ((m.reading_history.map DustReading.pm25).sum /
        m.reading_history.length),
      pm10 := round2 ((m.reading_history.map DustReading.pm10).sum /
        m.reading_history.length) }

/-- Result of `DataProcessor.analyze_reading` (the analysis dict). -/
structure Analysis where
  status : String
  severity : String
  pm25_level : ℚ
  pm10_level : ℚ
  pm25_threshold : ℚ
  pm10_threshold : ℚ
deriving DecidableEq, Repr

/-- `DataProcessor.analyze_reading(reading)`: sequential conditional updates
of `status`/`severity`, the PM2.5 block first, then the PM10 block
(shadowing `let`s model the Python reassignments). -/
def analyze_reading (r : DustReading) : Analysis :=
  let status := "SAFE"
  let severity := "LOW"
  let status := if r.pm25 > PM25_SAFE_THRESHOLD then "UNSAFE" else status
  let severity :=
    if r.pm25 > PM25_SAFE_THRESHOLD then
      if r.pm25 > 50 then "CRITICAL" else if r.pm25 > 35 then "HIGH" else "MODERATE"
    else severity
  let status := if r.pm10 > PM10_SAFE_THRESHOLD then "UNSAFE" else status
  let severity :=
    if r.pm10 > PM10_SAFE_THRESHOLD then
      if r.pm10 > 100 then "CRITICAL" else if r.pm10 > 70 then "HIGH" else "MODERATE"
    else severity
  { status := status, severity := severity, pm25_level := r.pm25,
    pm10_level := r.pm10, pm25_threshold := PM25_SAFE_THRESHOLD,
    pm10_threshold := PM10_SAFE_THRESHOLD }

/-- `DataProcessor` state.  `alert_history` is initialised empty and never
written by the Python class; it is kept for completeness. -/
structure DataProcessor where
  all_readings : List DustReading
  alert_history : List Analysis
deriving DecidableEq, Repr

/-- `DataProcessor.__init__()`. -/
def processorInit : DataProcessor := { all_readings := [], alert_history := [] }

/-- `DataProcessor.add_reading(reading)`: append, then truncate to the last
1000 readings if the length exceeds 1000. -/
def add_reading (p : DataProcessor) (r : DustReading) : DataProcessor :=
  { p with all_readings := boundedAppend 1000 p.all_readings r }

/-- Python `max` over a list; the empty case raises in Python and is
unreachable behind the non-emptiness guards of every call site (the value
returned for `[]` here is arbitrary). -/
def listMax : List ℚ → ℚ
  | [] => 0
  | x :: xs => xs.foldl max x

/-- Python `min` over a list; empty case as in `listMax`. -/
def listMin : List ℚ → ℚ
  | [] => 0
  | x :: xs => xs.foldl min x

/-- Result of `DataProcessor.get_statistics` in the non-empty case. -/
structure Stats where
  total_readings : Nat
  recent_readings : Nat
  avg_pm25 : ℚ
  avg_pm10 : ℚ
  max_pm25 : ℚ
  max_pm10 : ℚ
  min_pm25 : ℚ
  min_pm10 : ℚ
deriving DecidableEq, Repr

/-- `DataProcessor.get_statistics()`: `{}` (here `none`) when there are no
readings, else statistics over the last 100 readings. -/
def get_statistics (p : DataProcessor) : Option Stats :=
  if p.all_readings = [] then none
  else
    let recent_readings := takeLast 100 p.all_readings
    let pm25_values := recent_readings.map DustReading.pm25
    let pm10_values := recent_readings.map DustReading.pm10
    some
      { total_readings := p.all_readings.length,
        recent_readings := recent_readings.length,
        avg_pm25 := round2 (pm25_values.sum / pm25_values.length),
        avg_pm10 := round2 (pm10_values.sum / pm10_values.length),
        max_pm25 := round2 (listMax pm25_values),
        max_pm10 := round2 (listMax pm10_values),
        min_pm25 := round2 (listMin pm25_values),
        min_pm10 := round2 (listMin pm10_values) }

/-- One value of the pollution-map dict built by
`DataProcessor.get_pollution_map`. -/
structure MapEntry where
  location : ℚ × ℚ
  pm25 : ℚ
  pm10 : ℚ
  status : String
deriving DecidableEq, Repr

/-- The map entry computed for one active mote inside
`DataProcessor.get_pollution_map`. -/
def mapEntry (m : SmartDustMote) : MapEntry :=
  let avg := get_average_pollution m
  { location := m.location, pm25 := avg.pm25, pm10 := avg.pm10,
    status :=
      if avg.pm25 > PM25_SAFE_THRESHOLD ∨ avg.pm10 > PM10_SAFE_THRESHOLD
      then "UNSAFE" else "SAFE" }

/-- Python dict assignment `d[k] = v` on an insertion-ordered association
list: overwrite in place if the key is present, else append. -/
def dictInsert (d : List (String × MapEntry)) (k : String) (v : MapEntry) :
    List (String × MapEntry) :=
  if d.any (fun p => p.1 == k) then
    d.map (fun p => if p.1 == k then (k, v) else p)
  else d ++ [(k, v)]

/-- `DataProcessor.get_pollution_map(motes)`: one dict entry per active mote,
keyed by `mote_id`. -/
def get_pollution_map (motes : List SmartDustMote) : List (String × MapEntry) :=
  motes.foldl
    (fun acc m => if m.is_active then dictInsert acc m.mote_id (mapEntry m) else acc)
    []

/-- The structured content of the alert message string built by
`AlertSystem._generate_alert_message`: severity tier, mote id, and the list
of breaching pollutants, each with its measured value and the threshold it
exceeded, in the order PM2.5 then PM10.  (The exact float-to-string
rendering of the Python f-strings is not modelled; the message's content
is.) -/
structure AlertMsg where
  severity : String
  mote_id : String
  issues : List (String × ℚ × ℚ)
deriving DecidableEq, Repr

/-- An alert dict as built by `AlertSystem.check_and_alert`. -/
structure Alert where
  timestamp : ℚ
  mote_id : String
  location : ℚ × ℚ
  severity : String
  pm25 : ℚ
  pm10 : ℚ
  message : AlertMsg
deriving DecidableEq, Repr

/-- `AlertSystem._generate_alert_message(reading, analysis)`. -/
def generate_alert_message (r : DustReading) (analysis : Analysis) : AlertMsg :=
  let issues :=
    (if r.pm25 > PM25_SAFE_THRESHOLD
     then [("PM2.5", r.pm25, PM25_SAFE_THRESHOLD)] else []) ++
    (if r.pm10 > PM10_SAFE_THRESHOLD
     then [("PM10", r.pm10, PM10_SAFE_THRESHOLD)] else [])
  { severity := analysis.severity, mote_id := r.mote_id, issues := issues }

/-- The alert dict constructed inside `AlertSystem.check_and_alert` for an
UNSAFE analysis. -/
def mkAlert (r : DustReading) (analysis : Analysis) : Alert :=
  { timestamp := r.timestamp, mote_id := r.mote_id, location := r.location,
    severity := analysis.severity, pm25 := r.pm25, pm10 := r.pm10,
    message := generate_alert_message r analysis }

/-- An observer callback: invoked on an alert, it either returns normally or
raises an exception (modelled as `Except.error` with a message). -/
def Callback : Type := Alert → Except String Unit

/-- `AlertSystem` state: the bounded alert log and the registered callbacks
in registration order. -/
structure AlertSystem where
  alerts : List Alert
  alert_callbacks : List Callback

/-- `AlertSystem.__init__()`. -/
def alertSystemInit : AlertSystem := { alerts := [], alert_callbacks := [] }

/-- `AlertSystem.register_callback(callback)`. -/
def register_callback (s : AlertSystem) (c : Callback) : AlertSystem :=
  { s with alert_callbacks := s.alert_callbacks ++ [c] }

/-- The `for callback in self.alert_callbacks: callback(alert)` loop, which
has no exception handling: callbacks run in order until the first one that
raises; its exception propagates.  Returns the number of callbacks actually
invoked and the propagated exception, if any. -/
def runCallbacks : List Callback → Alert → Nat × Option String
  | [], _ => (0, none)
  | c :: cs, a =>
    match c a with
    | Except.error e => (1, some e)
    | Except.ok _ =>
      let rest := runCallbacks cs a
      (rest.1 + 1, rest.2)

/-- `AlertSystem.check_and_alert(reading, analysis)`: on an UNSAFE analysis,
build the alert, append it to the bounded log (evicting beyond 100), then
invoke the callbacks in registration order.  Returns the new state, the
number of callbacks invoked, and the exception that propagated out of the
method, if any (the log mutation precedes the callback loop, so it survives
a raising callback). -/
def check_and_alert (s : AlertSystem) (r : DustReading) (analysis : Analysis) :
    AlertSystem × Nat × Option String :=
  if analysis.status = "UNSAFE" then
    let alert := mkAlert r analysis
    let alerts := boundedAppend 100 s.alerts alert
    let run := runCallbacks s.alert_callbacks alert
    ({ s with alerts := alerts }, run.1, run.2)
  else (s, 0, none)

/-- `AlertSystem.get_recent_alerts(count)`: Python `self.alerts[-count:] if
self.alerts else []`.  For `count = 0` the slice `[-0:]` is `[0:]`, the
whole list. -/
def get_recent_alerts (count : Nat) (s : AlertSystem) : List Alert :=
  if s.alerts = [] then []
  else if count = 0 then s.alerts
  else takeLast count s.alerts

/-- Repeatedly `sense` a mote, one tuple of random/clock draws per call;
returns the emitted readings in order and the final mote state. -/
def senseAll (m : SmartDustMote) :
    List (ℚ × ℚ × ℚ × ℚ × ℚ × ℚ) → List DustReading × SmartDustMote
  | [] => ([], m)
  | d :: ds =>
    let step := sense m d.1 d.2.1 d.2.2.1 d.2.2.2.1 d.2.2.2.2.1 d.2.2.2.2.2
    let rest := senseAll step.2 ds
    (step.1 :: rest.1, rest.2)

/-- Fold `DataProcessor.add_reading` over a list of readings. -/
def ingestAll (p : DataProcessor) (rs : List DustReading) : DataProcessor :=
  rs.foldl add_reading p

/-- Fold `AlertSystem.check_and_alert` over a list of (reading, analysis)
pairs, keeping only the evolving state. -/
def evalAll (s : AlertSystem) : List (DustReading × Analysis) → AlertSystem
  | [] => s
  | p :: ps => evalAll (check_and_alert s p.1 p.2).1 ps

/-- A concrete reading with PM2.5 = 60 and PM10 = 60 (both pollutants
breach; PM2.5 alone would be CRITICAL, PM10 alone MODERATE). -/
def reading6060 : DustReading :=
  { mote_id := "MOTE-001", timestamp := 0, pm25 := 60, pm10 := 60,
    temperature := 20, humidity := 40, location := (0, 0) }

/-- A concrete reading with PM2.5 = 30 and PM10 = 10. -/
def readingC4 : DustReading :=
  { mote_id := "MOTE-001", timestamp := 0, pm25 := 30, pm10 := 10,
    temperature := 20, humidity := 40, location := (0, 0) }

/-- The statistics produced for the single-reading history `[readingC4]`. -/
def statsC4 : Stats :=
  { total_readings := 1, recent_readings := 1, avg_pm25 := 30, avg_pm10 := 10,
    max_pm25 := 30, max_pm10 := 10, min_pm25 := 30, min_pm10 := 10 }

/-- An active mote with one reading in its history. -/
def moteA : SmartDustMote :=
  { mote_id := "A", location := (0, 0), base_pollution := 1/2,
    is_active := true, reading_history := [readingC4] }

/-- An inactive mote. -/
def moteB : SmartDustMote :=
  { mote_id := "B", location := (1, 1), base_pollution := 0,
    is_active := false, reading_history := [] }

/-- The alert generated for `reading6060`. -/
def alert0 : Alert := mkAlert reading6060 (analyze_reading reading6060)

/-- An alert system whose log holds exactly one alert. -/
def sysOneAlert : AlertSystem := { alerts := [alert0], alert_callbacks := [] }

/-- A callback that raises on every alert. -/
def cbBoom : Callback := fun _ => Except.error "boom"

/-- A callback that returns normally on every alert. -/
def cbOk : Callback := fun _ => Except.ok ()

/-- An alert system with an empty log and two registered callbacks, the
first of which raises. -/
def sysTwoCallbacks : AlertSystem :=
  { alerts := [], alert_callbacks := [cbBoom, cbOk] }

theorem roundHalfEven_mono {x y : ℚ} (h : x ≤ y) :
    roundHalfEven x ≤ roundHalfEven y := by
  have hf : ⌊x⌋ ≤ ⌊y⌋ := Int.floor_mono h
  rcases eq_or_lt_of_le hf with heq | hlt
  · have heq' : (⌊x⌋ : ℚ) = (⌊y⌋ : ℚ) := by exact_mod_cast heq
    unfold roundHalfEven
    split_ifs <;> first | omega | (exfalso; linarith)
  · unfold roundHalfEven
    split_ifs <;> omega

theorem roundHalfEven_intCast (n : ℤ) : roundHalfEven (n : ℚ) = n := by
  simp [roundHalfEven]

theorem round2_mono {x y : ℚ} (h : x ≤ y) : round2 x ≤ round2 y := by
  unfold round2
  have h100 : x * 100 ≤ y * 100 := by linarith
  have := roundHalfEven_mono h100
  have hcast : ((roundHalfEven (x * 100) : ℤ) : ℚ) ≤ ((roundHalfEven (y * 100) : ℤ) : ℚ) := by
    exact_mod_cast this
  exact (div_le_div_iff_of_pos_right (by norm_num)).mpr hcast

theorem round2_intCast (n : ℤ) : round2 (n : ℚ) = n := by
  unfold round2
  have : ((n : ℚ)) * 100 = ((n * 100 : ℤ) : ℚ) := by push_cast; ring
  rw [this, roundHalfEven_intCast]
  push_cast
  ring

theorem round2_nonneg {x : ℚ} (h : 0 ≤ x) : 0 ≤ round2 x := by
  have h0 : round2 (0 : ℚ) = 0 := by
    have := round2_intCast 0
    simpa using this
  calc (0 : ℚ) = round2 0 := h0.symm
    _ ≤ round2 x := round2_mono h

theorem round2_le_100 {x : ℚ} (h : x ≤ 100) : round2 x ≤ 100 := by
  have h100 : round2 (100 : ℚ) = 100 := by
    have := round2_intCast 100
    simpa using this
  calc round2 x ≤ round2 100 := round2_mono h
    _ = 100 := h100

theorem isRounded2_round2 (x : ℚ) : isRounded2 (round2 x) :=
  ⟨roundHalfEven (x * 100), rfl⟩

theorem takeLast_length (n : Nat) (xs : List α) :
    (takeLast n xs).length = min n xs.length := by
  simp [takeLast]
  omega

theorem takeLast_length_le (n : Nat) (xs : List α) :
    (takeLast n xs).length ≤ n := by
  rw [takeLast_length]
  omega

theorem takeLast_nil (n : Nat) : takeLast n ([] : List α) = [] := by
  simp [takeLast]

theorem takeLast_takeLast (a b : Nat) (l : List α) :
    takeLast a (takeLast b l) = takeLast (min a b) l := by
  unfold takeLast
  rw [List.length_drop, List.drop_drop]
  congr 1
  omega

theorem takeLast_append_of_le (n : Nat) (l m : List α) (h : m.length ≤ n) :
    takeLast n (l ++ m) = takeLast (n - m.length) l ++ m := by
  unfold takeLast
  rw [List.length_append, List.drop_append_of_le_length (by omega)]
  have hidx : l.length + m.length - n = l.length - (n - m.length) := by omega
  rw [hidx]

theorem takeLast_append_of_ge (n : Nat) (l m : List α) (h : n ≤ m.length) :
    takeLast n (l ++ m) = takeLast n m := by
  unfold takeLast
  rw [List.length_append]
  have hidx : l.length + m.length - n = l.length + (m.length - n) := by omega
  rw [hidx, List.drop_append]

theorem takeLast_append_takeLast (n : Nat) (l m : List α) :
    takeLast n (takeLast n l ++ m) = takeLast n (l ++ m) := by
  rcases le_or_lt m.length n with h | h
  · rw [takeLast_append_of_le n l m h, takeLast_append_of_le n (takeLast n l) m h,
      takeLast_takeLast]
    have hmin : min (n - m.length) n = n - m.length := by omega
    rw [hmin]
  · rw [takeLast_append_of_ge n (takeLast n l) m h.le, takeLast_append_of_ge n l m h.le]

theorem boundedAppend_eq_takeLast (cap : Nat) (xs : List α) (x : α) :
    boundedAppend cap xs x = takeLast cap (xs ++ [x]) := by
  unfold boundedAppend takeLast
  split_ifs with h
  · rfl
  · have hz : (xs ++ [x]).length - cap = 0 := by omega
    rw [hz, List.drop_zero]

theorem foldl_boundedAppend (cap : Nat) (a xs : List α) :
    xs.foldl (boundedAppend cap) (takeLast cap a) = takeLast cap (a ++ xs) := by
  induction xs generalizing a with
  | nil => simp
  | cons x xs ih =>
    rw [List.foldl_cons, boundedAppend_eq_takeLast, takeLast_append_takeLast]
    have h := ih (a ++ [x])
    rw [List.append_assoc] at h
    simpa using h

theorem foldl_boundedAppend_nil (cap : Nat) (xs : List α) :
    xs.foldl (boundedAppend cap) [] = takeLast cap xs := by
  have h := foldl_boundedAppend cap [] xs
  rw [takeLast_nil] at h
  simpa using h

theorem takeLast_of_length_le {n : Nat} {xs : List α} (h : xs.length ≤ n) :
    takeLast n xs = xs := by
  unfold takeLast
  rw [Nat.sub_eq_zero_of_le h, List.drop_zero]

theorem sense_snd_history (m : SmartDustMote) (a b c d e f : ℚ) :
    (sense m a b c d e f).2.reading_history
      = boundedAppend 100 m.reading_history (sense m a b c d e f).1 := rfl

theorem ingestAll_all_readings (p : DataProcessor) (rs : List DustReading) :
    (ingestAll p rs).all_readings = rs.foldl (boundedAppend 1000) p.all_readings := by
  induction rs generalizing p with
  | nil => rfl
  | cons r rs ih =>
    simp only [ingestAll, List.foldl_cons] at *
    exact ih (add_reading p r)

theorem ingestAll_readings (rs : List DustReading) :
    (ingestAll processorInit rs).all_readings = takeLast 1000 rs := by
  rw [ingestAll_all_readings]
  exact foldl_boundedAppend_nil 1000 rs

theorem senseAll_history (m : SmartDustMote)
    (ds : List (ℚ × ℚ × ℚ × ℚ × ℚ × ℚ)) (h : m.reading_history.length ≤ 100) :
    (senseAll m ds).2.reading_history
      = takeLast 100 (m.reading_history ++ (senseAll m ds).1) := by
  induction ds generalizing m with
  | nil => simp [senseAll, takeLast_of_length_le h]
  | cons d ds ih =>
    simp only [senseAll]
    set m' := (sense m d.1 d.2.1 d.2.2.1 d.2.2.2.1 d.2.2.2.2.1 d.2.2.2.2.2).2 with hm'
    set r := (sense m d.1 d.2.1 d.2.2.1 d.2.2.2.1 d.2.2.2.2.1 d.2.2.2.2.2).1 with hr
    have hist' : m'.reading_history = takeLast 100 (m.reading_history ++ [r]) := by
      rw [hm', sense_snd_history, boundedAppend_eq_takeLast]
    have hlen' : m'.reading_history.length ≤ 100 := by
      rw [hist']; exact takeLast_length_le _ _
    have := ih m' hlen'
    rw [this, hist', takeLast_append_takeLast, List.append_assoc]
    rfl

theorem check_and_alert_appends (s : AlertSystem) (r : DustReading)
    (a : Analysis) (h : a.status = "UNSAFE") :
    (check_and_alert s r a).1.alerts = boundedAppend 100 s.alerts (mkAlert r a) := by
  simp [check_and_alert, h]

theorem check_and_alert_skips (s : AlertSystem) (r : DustReading)
    (a : Analysis) (h : a.status ≠ "UNSAFE") :
    (check_and_alert s r a).1 = s := by
  simp [check_and_alert, h]

theorem evalAll_alerts (s : AlertSystem) (ps : List (DustReading × Analysis))
    (hs : s.alerts.length ≤ 100) :
    (evalAll s ps).alerts
      = takeLast 100 (s.alerts ++
          (ps.filter fun p => p.2.status == "UNSAFE").map fun p => mkAlert p.1 p.2) := by
  induction ps generalizing s with
  | nil => simp [evalAll, takeLast_of_length_le hs]
  | cons p ps ih =>
    simp only [evalAll]
    by_cases hu : p.2.status = "UNSAFE"
    · have h1 : (check_and_alert s p.1 p.2).1.alerts
          = takeLast 100 (s.alerts ++ [mkAlert p.1 p.2]) := by
        rw [check_and_alert_appends s p.1 p.2 hu, boundedAppend_eq_takeLast]
      have h2 : (check_and_alert s p.1 p.2).1.alerts.length ≤ 100 := by
        rw [h1]; exact takeLast_length_le _ _
      rw [ih _ h2, h1, takeLast_append_takeLast, List.append_assoc]
      simp [List.filter_cons, hu]
    · have h1 : (check_and_alert s p.1 p.2).1 = s :=
        check_and_alert_skips s p.1 p.2 hu
      rw [h1, ih s hs]
      simp [List.filter_cons, hu]

theorem le_foldl_max (xs : List ℚ) :
    ∀ (x a : ℚ), a ∈ x :: xs → a ≤ xs.foldl max x := by
  induction xs with
  | nil =>
    intro x a ha
    simp only [List.mem_singleton] at ha
    simp [ha]
  | cons y ys ih =>
    intro x a ha
    rw [List.foldl_cons]
    have hbase : max x y ≤ ys.foldl max (max x y) :=
      ih (max x y) (max x y) (List.mem_cons_self _ _)
    rcases List.mem_cons.mp ha with rfl | h2
    · exact le_trans (le_max_left a y) hbase
    · rcases List.mem_cons.mp h2 with rfl | h3
      · exact le_trans (le_max_right x a) hbase
      · exact ih (max x y) a (List.mem_cons_of_mem _ h3)

theorem foldl_min_le (xs : List ℚ) :
    ∀ (x a : ℚ), a ∈ x :: xs → xs.foldl min x ≤ a := by
  induction xs with
  | nil =>
    intro x a ha
    simp only [List.mem_singleton] at ha
    simp [ha]
  | cons y ys ih =>
    intro x a ha
    rw [List.foldl_cons]
    have hbase : ys.foldl min (min x y) ≤ min x y :=
      ih (min x y) (min x y) (List.mem_cons_self _ _)
    rcases List.mem_cons.mp ha with rfl | h2
    · exact le_trans hbase (min_le_left a y)
    · rcases List.mem_cons.mp h2 with rfl | h3
      · exact le_trans hbase (min_le_right x a)
      · exact ih (min x y) a (List.mem_cons_of_mem _ h3)

theorem le_listMax {l : List ℚ} {a : ℚ} (ha : a ∈ l) : a ≤ listMax l := by
  cases l with
  | nil => simp at ha
  | cons x xs => exact le_foldl_max xs x a ha

theorem listMin_le {l : List ℚ} {a : ℚ} (ha : a ∈ l) : listMin l ≤ a := by
  cases l with
  | nil => simp at ha
  | cons x xs => exact foldl_min_le xs x a ha

theorem listMin_le_avg_le_listMax {l : List ℚ} (h : l ≠ []) :
    listMin l ≤ l.sum / l.length ∧ l.sum / l.length ≤ listMax l := by
  have hpos : 0 < l.length := List.length_pos.mpr h
  have hq : 0 < (l.length : ℚ) := by exact_mod_cast hpos
  have h1 : l.length • listMin l ≤ l.sum :=
    List.card_nsmul_le_sum l (listMin l) (fun x hx => listMin_le hx)
  have h2 : l.sum ≤ l.length • listMax l :=
    List.sum_le_card_nsmul l (listMax l) (fun x hx => le_listMax hx)
  rw [nsmul_eq_mul] at h1 h2
  constructor
  · rw [le_div_iff₀ hq]
    linarith
  · rw [div_le_iff₀ hq]
    linarith

theorem takeLast_ne_nil {n : Nat} {xs : List α} (hn : 0 < n) (hxs : xs ≠ []) :
    takeLast n xs ≠ [] := by
  intro hnil
  have hlen := takeLast_length n xs
  rw [hnil] at hlen
  have hpos : 0 < xs.length := List.length_pos.mpr hxs
  simp at hlen
  omega

theorem get_statistics_eq (p : DataProcessor) (h : p.all_readings ≠ []) :
    get_statistics p = some
      { total_readings := p.all_readings.length,
        recent_readings := (takeLast 100 p.all_readings).length,
        avg_pm25 := round2 (((takeLast 100 p.all_readings).map DustReading.pm25).sum /
          ((takeLast 100 p.all_readings).map DustReading.pm25).length),
        avg_pm10 := round2 (((takeLast 100 p.all_readings).map DustReading.pm10).sum /
          ((takeLast 100 p.all_readings).map DustReading.pm10).length),
        max_pm25 := round2 (listMax ((takeLast 100 p.all_readings).map DustReading.pm25)),
        max_pm10 := round2 (listMax ((takeLast 100 p.all_readings).map DustReading.pm10)),
        min_pm25 := round2 (listMin ((takeLast 100 p.all_readings).map DustReading.pm25)),
        min_pm10 := round2 (listMin ((takeLast 100 p.all_readings).map DustReading.pm10)) } := by
  unfold get_statistics
  rw [if_neg h]

theorem get_statistics_total (p : DataProcessor) (h : p.all_readings ≠ []) :
    (get_statistics p).map Stats.total_readings = some p.all_readings.length := by
  rw [get_statistics_eq p h]
  rfl

theorem foldl_pollution_insert (motes : List SmartDustMote) :
    ∀ (acc : List (String × MapEntry)),
    (∀ m ∈ motes, ∀ e ∈ acc, e.1 ≠ m.mote_id) →
    (motes.map SmartDustMote.mote_id).Nodup →
    motes.foldl
        (fun acc m =>
          if m.is_active then dictInsert acc m.mote_id (mapEntry m) else acc)
        acc
      = acc ++ (motes.filter fun m => m.is_active).map
          (fun m => (m.mote_id, mapEntry m)) := by
  induction motes with
  | nil => intro acc _ _; simp
  | cons m ms ih =>
    intro acc hdisj hnd
    rw [List.map_cons, List.nodup_cons] at hnd
    obtain ⟨hhead, hnd'⟩ := hnd
    rw [List.foldl_cons]
    by_cases ha : m.is_active = true
    · have hins : dictInsert acc m.mote_id (mapEntry m)
          = acc ++ [(m.mote_id, mapEntry m)] := by
        unfold dictInsert
        rw [if_neg]
        simp only [List.any_eq_true, beq_iff_eq, not_exists]
        intro e hc
        exact hdisj m (List.mem_cons_self _ _) e hc.1 hc.2
      have hdisj' : ∀ m' ∈ ms, ∀ e ∈ acc ++ [(m.mote_id, mapEntry m)],
          e.1 ≠ m'.mote_id := by
        intro m' hm' e he
        rcases List.mem_append.mp he with hacc | hsing
        · exact hdisj m' (List.mem_cons_of_mem _ hm') e hacc
        · simp only [List.mem_singleton] at hsing
          subst hsing
          intro hcontra
          have heq : m.mote_id = m'.mote_id := hcontra
          apply hhead
          rw [heq]
          exact List.mem_map_of_mem SmartDustMote.mote_id hm'
      rw [ha]
      simp only [if_true, hins]
      rw [ih (acc ++ [(m.mote_id, mapEntry m)]) hdisj' hnd']
      simp [List.filter_cons, ha, List.append_assoc]
    · have hdisj' : ∀ m' ∈ ms, ∀ e ∈ acc, e.1 ≠ m'.mote_id :=
        fun m' hm' e he => hdisj m' (List.mem_cons_of_mem _ hm') e he
      simp only [ha, if_false, Bool.false_eq_true]
      rw [ih acc hdisj' hnd']
      simp [List.filter_cons, ha]

theorem get_pollution_map_eq (motes : List SmartDustMote)
    (h : (motes.map SmartDustMote.mote_id).Nodup) :
    get_pollution_map motes
      = (motes.filter fun m => m.is_active).map (fun m => (m.mote_id, mapEntry m)) := by
  unfold get_pollution_map
  have := foldl_pollution_insert motes [] (by intro m _ e he; simp at he) h
  simpa using this

/-- C1: `analyze_reading` returns status UNSAFE iff `pm25 > 25` or
`pm10 > 50` (else SAFE with severity LOW); the final severity is the PM10
tier whenever PM10 breaches (PM2.5's tier is computed first and then
overwritten), with tiers PM2.5 `>50` CRITICAL / `>35` HIGH / else MODERATE
and PM10 `>100` CRITICAL / `>70` HIGH / else MODERATE; in particular
`pm25 = 60, pm10 = 60` yields severity MODERATE. -/
theorem claim_C1_classifier (r : DustReading) :
    ((analyze_reading r).status = "UNSAFE" ↔ (r.pm25 > 25 ∨ r.pm10 > 50))
    ∧ ((analyze_reading r).status = "SAFE" ↔ ¬(r.pm25 > 25 ∨ r.pm10 > 50))
    ∧ (analyze_reading r).severity =
        (if r.pm10 > 50 then
           if r.pm10 > 100 then "CRITICAL"
           else if r.pm10 > 70 then "HIGH" else "MODERATE"
         else if r.pm25 > 25 then
           if r.pm25 > 50 then "CRITICAL"
           else if r.pm25 > 35 then "HIGH" else "MODERATE"
         else "LOW")
    ∧ (analyze_reading reading6060).status = "UNSAFE"
    ∧ (analyze_reading reading6060).severity = "MODERATE" := by
  refine ⟨?_, ?_, ?_, by decide, by decide⟩ <;>
    simp only [analyze_reading, PM25_SAFE_THRESHOLD, PM10_SAFE_THRESHOLD] <;>
    (split_ifs <;> simp_all)

/-- C2 (code bug): with two registered callbacks of which the first raises,
an UNSAFE evaluation by `check_and_alert` does append the alert to the log,
but the second callback is NOT invoked (only 1 of the 2 callbacks runs) and
the first callback's exception propagates out of `check_and_alert` — the
code has no exception handling around the callback loop, contradicting the
spec's isolation requirement. -/
theorem claim_C2_callbacks_not_isolated :
    (analyze_reading reading6060).status = "UNSAFE"
    ∧ sysTwoCallbacks.alert_callbacks.length = 2
    ∧ (check_and_alert sysTwoCallbacks reading6060 (analyze_reading reading6060)).1.alerts
        = [mkAlert reading6060 (analyze_reading reading6060)]
    ∧ (check_and_alert sysTwoCallbacks reading6060 (analyze_reading reading6060)).2.1 = 1
    ∧ (check_and_alert sysTwoCallbacks reading6060 (analyze_reading reading6060)).2.2
        = some "boom" := by
  refine ⟨by decide, rfl, ?_, ?_, ?_⟩ <;> rfl

/-- C3: all three buffers are FIFO-eviction bounded: after any sequence of
`sense` calls a node's history is exactly the at most 100 most recent
readings in arrival order; after any sequence of `add_reading` calls the
global history is exactly the at most 1000 most recent readings; after any
sequence of `check_and_alert` calls the alert log is exactly the at most 100
most recent generated alerts. -/
theorem claim_C3_bounded_fifo :
    (∀ (id : String) (loc : ℚ × ℚ) (base : ℚ)
       (ds : List (ℚ × ℚ × ℚ × ℚ × ℚ × ℚ)),
       (senseAll (moteInit id loc base) ds).2.reading_history
         = takeLast 100 (senseAll (moteInit id loc base) ds).1
       ∧ (senseAll (moteInit id loc base) ds).2.reading_history.length ≤ 100)
    ∧ (∀ rs : List DustReading,
       (ingestAll processorInit rs).all_readings = takeLast 1000 rs
       ∧ (ingestAll processorInit rs).all_readings.length ≤ 1000)
    ∧ (∀ (cbs : List Callback) (ps : List (DustReading × Analysis)),
       (evalAll { alerts := [], alert_callbacks := cbs } ps).alerts
         = takeLast 100
             ((ps.filter fun p => p.2.status == "UNSAFE").map fun p => mkAlert p.1 p.2)
       ∧ (evalAll { alerts := [], alert_callbacks := cbs } ps).alerts.length ≤ 100) := by
  refine ⟨?_, ?_, ?_⟩
  · intro id loc base ds
    have h := senseAll_history (moteInit id loc base) ds (by simp [moteInit])
    have h2 : (senseAll (moteInit id loc base) ds).2.reading_history
        = takeLast 100 (senseAll (moteInit id loc base) ds).1 := by
      simpa [moteInit] using h
    exact ⟨h2, by rw [h2]; exact takeLast_length_le _ _⟩
  · intro rs
    exact ⟨ingestAll_readings rs, by
      rw [ingestAll_readings rs]; exact takeLast_length_le _ _⟩
  · intro cbs ps
    have h := evalAll_alerts { alerts := [], alert_callbacks := cbs } ps (by simp)
    have h2 : (evalAll { alerts := [], alert_callbacks := cbs } ps).alerts
        = takeLast 100
            ((ps.filter fun p => p.2.status == "UNSAFE").map fun p => mkAlert p.1 p.2) := by
      simpa using h
    exact ⟨h2, by rw [h2]; exact takeLast_length_le _ _⟩

/-- C4 (counterexample): after ingesting 1500 readings, `get_statistics`
reports `total_readings = 1000` (the truncated history length), not 1500 as
the claim's "readings ever seen" would require. -/
theorem claim_C4_counterexample :
    (get_statistics (ingestAll processorInit (List.replicate 1500 readingC4))).map
        Stats.total_readings = some 1000
    ∧ (1000 : Nat) ≠ 1500 := by
  constructor
  · have hr := ingestAll_readings (List.replicate 1500 readingC4)
    have hne : (ingestAll processorInit (List.replicate 1500 readingC4)).all_readings
        ≠ [] := by
      rw [hr]
      refine takeLast_ne_nil (by norm_num) ?_
      intro hc
      have hlen := congrArg List.length hc
      rw [List.length_replicate, List.length_nil] at hlen
      exact absurd hlen (by norm_num)
    rw [get_statistics_total _ hne, hr, takeLast_length, List.length_replicate]
    norm_num
  · decide

/-- C4 (amended): `get_statistics` reports as `total_readings` the current
length of the bounded global history, i.e. `min` of the number of readings
ever ingested and 1000 — after ingesting 1500 readings the reported total
is 1000, not 1500. -/
theorem claim_C4_amended_total (rs : List DustReading) (h : rs ≠ []) :
    (get_statistics (ingestAll processorInit rs)).map Stats.total_readings
      = some (min rs.length 1000) := by
  have hr := ingestAll_readings rs
  have hne : (ingestAll processorInit rs).all_readings ≠ [] := by
    rw [hr]
    exact takeLast_ne_nil (by norm_num) h
  rw [get_statistics_total _ hne, hr, takeLast_length]
  congr 1
  omega

/-- Witness for C4's amended theorem at the one-reading input. -/
theorem claim_C4_witness :
    ([readingC4] : List DustReading) ≠ []
    ∧ (get_statistics (ingestAll processorInit [readingC4])).map Stats.total_readings
        = some (min ([readingC4] : List DustReading).length 1000) :=
  ⟨by simp, claim_C4_amended_total [readingC4] (by simp)⟩

/-- C5 (code bug): the constructor accepts an intensity outside `[0, 1]`
without any validation — the mote is created with `base_pollution = 2`, and
the out-of-range value propagates into generated readings (`sense` with all
noise draws zero yields PM2.5 = 10 + 2·40 = 90). -/
theorem claim_C5_no_validation :
    (moteInit "MOTE-001" (0, 0) 2).base_pollution = 2
    ∧ ¬((0 : ℚ) ≤ (moteInit "MOTE-001" (0, 0) 2).base_pollution
        ∧ (moteInit "MOTE-001" (0, 0) 2).base_pollution ≤ 1)
    ∧ (sense (moteInit "MOTE-001" (0, 0) 2) 0 0 0 0 0 0).1.pm25 = 90 := by
  refine ⟨rfl, by norm_num [moteInit], ?_⟩
  have h1 : (sense (moteInit "MOTE-001" (0, 0) 2) 0 0 0 0 0 0).1.pm25
      = round2 (max 0 ((10 + 2 * 40) * (1 + (3/10) * 0) + 0)) := rfl
  have h2 : max (0 : ℚ) ((10 + 2 * 40) * (1 + (3/10) * 0) + 0) = ((90 : ℤ) : ℚ) := by
    norm_num
  rw [h1, h2, round2_intCast]
  norm_num

/-- C6 (counterexample): with one alert in the log, `get_recent_alerts 0`
returns the whole log (Python `alerts[-0:]` is `alerts[0:]`), not the empty
slice of "the last 0 alerts" that the claim requires. -/
theorem claim_C6_counterexample :
    get_recent_alerts 0 sysOneAlert = [alert0]
    ∧ ([alert0] : List Alert) ≠ [] := by
  exact ⟨rfl, by simp⟩

/-- C6 (amended): for every `n ≥ 1`, `get_recent_alerts n` returns the last
`n` alerts in arrival order (all available if fewer than `n` exist, empty if
the log is empty); for `n = 0` it returns the entire log, not the empty
list. -/
theorem claim_C6_recent_alerts (s : AlertSystem) (n : Nat) (h : 1 ≤ n) :
    get_recent_alerts n s = takeLast n s.alerts
    ∧ get_recent_alerts 0 s = s.alerts := by
  constructor
  · unfold get_recent_alerts
    split_ifs with h1 h2
    · rw [h1, takeLast_nil]
    · omega
    · rfl
  · unfold get_recent_alerts
    split_ifs with h1 h2
    · exact h1.symm
    · rfl
    · exact absurd rfl h2

/-- Witness for C6's amended theorem at `n = 2` on a one-alert log. -/
theorem claim_C6_witness :
    (1 ≤ 2)
    ∧ get_recent_alerts 2 sysOneAlert = takeLast 2 sysOneAlert.alerts
    ∧ get_recent_alerts 0 sysOneAlert = sysOneAlert.alerts :=
  ⟨by norm_num, (claim_C6_recent_alerts sysOneAlert 2 (by norm_num)).1,
    (claim_C6_recent_alerts sysOneAlert 2 (by norm_num)).2⟩

/-- C7: with pairwise-distinct mote ids, the pollution map has exactly one
entry per active mote (in order) and never an inactive mote's id as a key;
each entry's pm25/pm10 are the 2-decimal-rounded arithmetic mean of that
mote's bounded history (0 if empty), and its status is UNSAFE exactly when
those averages exceed the Classifier's threshold constants 25.0 / 50.0
(else SAFE). -/
theorem claim_C7_pollution_map (motes : List SmartDustMote)
    (h : (motes.map SmartDustMote.mote_id).Nodup) :
    get_pollution_map motes
      = (motes.filter fun m => m.is_active).map (fun m => (m.mote_id, mapEntry m))
    ∧ (∀ m ∈ motes, m.is_active = false →
        ∀ e : MapEntry, (m.mote_id, e) ∉ get_pollution_map motes)
    ∧ (∀ m : SmartDustMote,
        (mapEntry m).pm25
          = (if m.reading_history = [] then 0
             else round2 ((m.reading_history.map DustReading.pm25).sum /
               m.reading_history.length))
        ∧ (mapEntry m).pm10
          = (if m.reading_history = [] then 0
             else round2 ((m.reading_history.map DustReading.pm10).sum /
               m.reading_history.length))
        ∧ ((mapEntry m).status = "UNSAFE" ↔
            ((mapEntry m).pm25 > PM25_SAFE_THRESHOLD
              ∨ (mapEntry m).pm10 > PM10_SAFE_THRESHOLD))
        ∧ ((mapEntry m).status = "SAFE" ↔
            ¬((mapEntry m).pm25 > PM25_SAFE_THRESHOLD
              ∨ (mapEntry m).pm10 > PM10_SAFE_THRESHOLD))) := by
  refine ⟨get_pollution_map_eq motes h, ?_, ?_⟩
  · intro m hm hinact e hmem
    rw [get_pollution_map_eq motes h] at hmem
    obtain ⟨m', hm'mem, hpair⟩ := List.mem_map.mp hmem
    obtain ⟨hm'motes, hm'act⟩ := List.mem_filter.mp hm'mem
    have hid : m'.mote_id = m.mote_id := congrArg Prod.fst hpair
    have heqm : m' = m := List.inj_on_of_nodup_map h hm'motes hm hid
    rw [heqm, hinact] at hm'act
    exact Bool.false_ne_true hm'act
  · intro m
    have hpm25 : (mapEntry m).pm25 = (get_average_pollution m).pm25 := rfl
    have hpm10 : (mapEntry m).pm10 = (get_average_pollution m).pm10 := rfl
    refine ⟨?_, ?_, ?_, ?_⟩
    · rw [hpm25]
      unfold get_average_pollution
      split_ifs <;> rfl
    · rw [hpm10]
      unfold get_average_pollution
      split_ifs <;> rfl
    · rw [show (mapEntry m).status
          = (if (get_average_pollution m).pm25 > PM25_SAFE_THRESHOLD
              ∨ (get_average_pollution m).pm10 > PM10_SAFE_THRESHOLD
             then "UNSAFE" else "SAFE") from rfl, hpm25, hpm10]
      split_ifs with hc <;> simp [hc]
    · rw [show (mapEntry m).status
          = (if (get_average_pollution m).pm25 > PM25_SAFE_THRESHOLD
              ∨ (get_average_pollution m).pm10 > PM10_SAFE_THRESHOLD
             then "UNSAFE" else "SAFE") from rfl, hpm25, hpm10]
      split_ifs with hc <;> simp [hc]

/-- Witness for C7 on a concrete two-mote list (one active with a reading,
one inactive): only the active mote appears in the pollution map. -/
theorem claim_C7_witness :
    ((([moteA, moteB] : List SmartDustMote).map SmartDustMote.mote_id).Nodup)
    ∧ get_pollution_map [moteA, moteB] = [(moteA.mote_id, mapEntry moteA)] := by
  refine ⟨by decide, ?_⟩
  have h := (claim_C7_pollution_map [moteA, moteB] (by decide)).1
  rw [h]
  rfl

/-- C8: `get_statistics` returns the designated empty result (`none`,
modelling the empty dict) exactly when the global reading history is empty;
it is a total function, raising no exception and performing no division by
zero. -/
theorem claim_C8_empty_statistics (readings : List DustReading)
    (ah : List Analysis) :
    (get_statistics { all_readings := readings, alert_history := ah } = none
      ↔ readings = [])
    ∧ get_statistics { all_readings := [], alert_history := ah } = none := by
  constructor
  · unfold get_statistics
    split_ifs with h <;> simp_all
  · rfl

/-- C9: for every mote and every tuple of random draws, the reading returned
by `sense` has PM2.5 ≥ 0, PM10 ≥ 0 and humidity in `[0, 100]` (out-of-range
draws are clamped), all four numeric fields are rounded to 2 decimal places,
`sense` is total (never fails), and exactly the returned reading is appended
to the mote's bounded history (no other field of the mote changes). -/
theorem claim_C9_sense (m : SmartDustMote) (gTime gPm25 gPm10 gTemp gHum now : ℚ) :
    0 ≤ (sense m gTime gPm25 gPm10 gTemp gHum now).1.pm25
    ∧ 0 ≤ (sense m gTime gPm25 gPm10 gTemp gHum now).1.pm10
    ∧ 0 ≤ (sense m gTime gPm25 gPm10 gTemp gHum now).1.humidity
    ∧ (sense m gTime gPm25 gPm10 gTemp gHum now).1.humidity ≤ 100
    ∧ isRounded2 (sense m gTime gPm25 gPm10 gTemp gHum now).1.pm25
    ∧ isRounded2 (sense m gTime gPm25 gPm10 gTemp gHum now).1.pm10
    ∧ isRounded2 (sense m gTime gPm25 gPm10 gTemp gHum now).1.temperature
    ∧ isRounded2 (sense m gTime gPm25 gPm10 gTemp gHum now).1.humidity
    ∧ (sense m gTime gPm25 gPm10 gTemp gHum now).2.reading_history
        = boundedAppend 100 m.reading_history
            (sense m gTime gPm25 gPm10 gTemp gHum now).1
    ∧ (sense m gTime gPm25 gPm10 gTemp gHum now).2.mote_id = m.mote_id
    ∧ (sense m gTime gPm25 gPm10 gTemp gHum now).2.location = m.location
    ∧ (sense m gTime gPm25 gPm10 gTemp gHum now).2.base_pollution = m.base_pollution
    ∧ (sense m gTime gPm25 gPm10 gTemp gHum now).2.is_active = m.is_active := by
  refine ⟨?_, ?_, ?_, ?_, isRounded2_round2 _, isRounded2_round2 _,
    isRounded2_round2 _, isRounded2_round2 _, rfl, rfl, rfl, rfl, rfl⟩
  · exact round2_nonneg (le_max_left 0 _)
  · exact round2_nonneg (le_max_left 0 _)
  · exact round2_nonneg (le_max_left 0 _)
  · exact round2_le_100 (max_le (by norm_num) (min_le_left _ _))

/-- C10: for every non-empty global history, the statistics snapshot
satisfies `min ≤ avg ≤ max` for both pollutants (2-decimal rounding
preserves the ordering), the count of readings considered equals
`min 100 (history length)`, and it never exceeds the reported total. -/
theorem claim_C10_stats_order (p : DataProcessor) (s : Stats)
    (hs : get_statistics p = some s) :
    s.min_pm25 ≤ s.avg_pm25
    ∧ s.avg_pm25 ≤ s.max_pm25
    ∧ s.min_pm10 ≤ s.avg_pm10
    ∧ s.avg_pm10 ≤ s.max_pm10
    ∧ s.recent_readings = min 100 p.all_readings.length
    ∧ s.recent_readings ≤ s.total_readings := by
  have hne : p.all_readings ≠ [] := by
    intro hnil
    rw [get_statistics, if_pos hnil] at hs
    exact Option.noConfusion hs
  rw [get_statistics_eq p hne] at hs
  have hs' := (Option.some.injEq _ _).mp hs
  subst hs'
  have hrne : takeLast 100 p.all_readings ≠ [] :=
    takeLast_ne_nil (by norm_num) hne
  have h25ne : (takeLast 100 p.all_readings).map DustReading.pm25 ≠ [] := by
    intro hc
    exact hrne (List.map_eq_nil.mp hc)
  have h10ne : (takeLast 100 p.all_readings).map DustReading.pm10 ≠ [] := by
    intro hc
    exact hrne (List.map_eq_nil.mp hc)
  have a25 := listMin_le_avg_le_listMax h25ne
  have a10 := listMin_le_avg_le_listMax h10ne
  refine ⟨round2_mono a25.1, round2_mono a25.2, round2_mono a10.1,
    round2_mono a10.2, ?_, ?_⟩
  · exact takeLast_length 100 p.all_readings
  · have hlen := takeLast_length 100 p.all_readings
    simp only [hlen]
    omega

/-- Witness for C10 on a one-reading history. -/
theorem claim_C10_witness :
    get_statistics { all_readings := [readingC4], alert_history := [] }
        = some statsC4
    ∧ (statsC4.min_pm25 ≤ statsC4.avg_pm25
       ∧ statsC4.avg_pm25 ≤ statsC4.max_pm25
       ∧ statsC4.min_pm10 ≤ statsC4.avg_pm10
       ∧ statsC4.avg_pm10 ≤ statsC4.max_pm10
       ∧ statsC4.recent_readings
           = min 100 (DataProcessor.all_readings
               { all_readings := [readingC4], alert_history := [] }).length
       ∧ statsC4.recent_readings ≤ statsC4.total_readings) := by
  have hne : ([readingC4] : List DustReading) ≠ [] := by simp
  have h30 : round2 (30 : ℚ) = 30 := by
    have h := round2_intCast 30
    norm_num at h
    exact h
  have h10 : round2 (10 : ℚ) = 10 := by
    have h := round2_intCast 10
    norm_num at h
    exact h
  have htl : takeLast 100 [readingC4] = [readingC4] :=
    takeLast_of_length_le (by simp)
  have hstats : get_statistics { all_readings := [readingC4], alert_history := [] }
      = some statsC4 := by
    rw [get_statistics_eq _ hne]
    norm_num [takeLast_of_length_le, statsC4, readingC4, listMax, listMin, h30, h10]
  exact ⟨hstats,
    claim_C10_stats_order { all_readings := [readingC4], alert_history := [] }
      statsC4 hstats⟩
